import Mathlib

/-!
Verification development for the `lambdarouter` HTTP router.

The repository is a fork of httptreemux adapted to AWS Lambda.  We give a
shallow embedding of the request-time pipeline: the `lookup` routine of the
`TreeMux` router, `ServeLookupResult`, the stage-variable injection and the
authorization step of `ServeHTTP`, together with the request/response adapter
helpers of `lambda_utils.go` (`LambdaRedirect`, `LambdaNotAllowed`,
`ResToHttp`, `RequestToLambda`'s query flattening and `UseTemplate`).

The trie search (`node.search`) lives in a file of the repository that is not
part of the sources given to us; the router only ever calls it through
`t.root.search`, so the model makes the search function a field of the
`TreeMux` structure and every theorem quantifies over it (hypotheses pin the
search result on the path of interest).  Go maps are modelled as association
lists; Go strings as Lean `String` (a list of characters); a Go panic is
modelled by an `Option` result being `none`.
-/

set_option maxHeartbeats 1000000

namespace LambdaRouter

/-- Association-list read `m[k]` of a Go `map[string]V` (first binding wins;
maps built by the model keep at most one binding per key). -/
def alookup {β : Type} (k : String) : List (String × β) → Option β
  | [] => none
  | (k', v) :: rest => if k' = k then some v else alookup k rest

/-- Association-list write `m[k] = v` of a Go map: any previous binding for
the key is replaced. -/
def mapSet (m : List (String × String)) (k v : String) : List (String × String) :=
  (k, v) :: m.filter (fun p => !decide (p.1 = k))

/-- The `events.APIGatewayProxyRequestContext` fields the router touches. -/
structure RequestContext where
  httpMethod : String := ""
  stage : String := ""
  authorizer : List (String × String) := []
  deriving DecidableEq

/-- The `events.APIGatewayProxyRequest` fields the router touches (the
canonical request of the spec). -/
structure ProxyRequest where
  httpMethod : String := ""
  path : String := ""
  resource : String := ""
  headers : List (String × String) := []
  queryStringParameters : List (String × String) := []
  pathParameters : List (String × String) := []
  stageVariables : List (String × String) := []
  requestContext : RequestContext := {}
  body : String := ""
  deriving DecidableEq

/-- The `events.APIGatewayProxyResponse` structure (the canonical response). -/
structure ProxyResponse where
  statusCode : Nat := 0
  headers : List (String × String) := []
  body : String := ""
  isBase64Encoded : Bool := false
  deriving DecidableEq

/-- `HandlerFunc` of the router; the returned Go `error` is dropped by every
caller we model, so a handler is a function from request to response. -/
abbrev Handler := ProxyRequest → ProxyResponse

/-- The trie node fields read by `lookup` (tree.go is not under src/; the
fields and their meaning are those of httptreemux's `node`). -/
structure Node where
  isCatchAll : Bool := false
  addSlash : Bool := false
  leafWildcardNames : List String := []
  leafHandler : List (String × Handler) := []

/-- `RedirectBehavior` enumeration. -/
inductive RedirectBehavior where
  | redirect301
  | redirect307
  | redirect308
  | useHandler
  deriving DecidableEq

/-- `LookupResult` structure. -/
structure LookupResult where
  statusCode : Nat := 0
  handler : Option Handler := none
  params : List (String × String) := []
  leafHandler : Option (List (String × Handler)) := none

/-- `events.APIGatewayCustomAuthorizerRequestTypeRequest` fields used by
`GenerateLambdaAuthorizer`. -/
structure AuthorizerRequest where
  methodArn : String := ""
  path : String := ""
  httpMethod : String := ""
  headers : List (String × String) := []
  queryStringParameters : List (String × String) := []
  pathParameters : List (String × String) := []
  stageVariables : List (String × String) := []
  deriving DecidableEq

/-- `events.APIGatewayCustomAuthorizerResponse` fields used by `ServeHTTP`
(the policy document is ignored by the router). -/
structure AuthorizerResponse where
  principalID : String := ""
  context : List (String × String) := []
  deriving DecidableEq

/-- The `TreeMux` router.  `search` stands for `t.root.search` (tree.go is not
under src/): it receives the method and the path with its leading slash
removed, and returns the matched node, the handler resolved for the method,
and the wildcard values collected during the walk. -/
structure TreeMux where
  search : String → String → Option Node × Option Handler × List String :=
    fun _ _ => (none, none, [])
  headCanUseGet : Bool := false
  redirectTrailingSlash : Bool := false
  redirectCleanPath : Bool := false
  removeCatchAllTrailingSlash : Bool := false
  redirectBehavior : RedirectBehavior := .redirect301
  redirectMethodBehavior : List (String × RedirectBehavior) := []
  optionsHandler : Option Handler := none
  notFoundHandler : ProxyRequest → ProxyResponse := fun _ => {}
  methodNotAllowedHandler : ProxyRequest → String → ProxyResponse := fun _ _ => {}
  stageVariables : List (String × List (String × String)) := []
  authorizer : Option (AuthorizerRequest → AuthorizerResponse × Option String) := none

/-- `LambdaRedirect` of lambda_utils.go: a response whose only content is the
status code and a `Location` header holding `newUrl`. -/
def lambdaRedirect (newUrl : String) (code : Nat) : ProxyResponse :=
  { statusCode := code, headers := [("Location", newUrl)] }

/-- `redirectHandler` of websocket.go. -/
def redirectHandler (newPath : String) (statusCode : Nat) : Handler :=
  fun _ => lambdaRedirect newPath statusCode

/-- `LambdaNotAllowed` of lambda_utils.go. -/
def lambdaNotAllowed (_req : ProxyRequest) (allow : String) : ProxyResponse :=
  { statusCode := 405
    headers := [("Allow", allow)]
    body := "\x7b\"error\": \"Method Not Allowed\"\x7d" }

/-- `LambdaNotFound` of lambda_utils.go. -/
def lambdaNotFound (_req : ProxyRequest) : ProxyResponse :=
  { statusCode := 404, body := "\x7b\"error\": \"Not Found\"\x7d" }

/-- `redirectStatusCode`: the per-method override takes precedence over the
global default; `UseHandler` disables redirection. -/
def TreeMux.redirectStatusCode (t : TreeMux) (method : String) : Nat × Bool :=
  match (alookup method t.redirectMethodBehavior).getD t.redirectBehavior with
  | .redirect301 => (301, true)
  | .redirect307 => (307, true)
  | .redirect308 => (308, true)
  | .useHandler => (0, false)

/-- Go byte access `s[i]`: `none` models the out-of-range panic. -/
def goStrIndex (s : String) (i : Nat) : Option Char :=
  s.data.get? i

/-- `path[pathLen-1] == '/' && pathLen > 1` (only evaluated on a non-empty
path; on the empty path the Go expression panics, handled in `lookupMT`). -/
def goTrailingSlash (p : String) : Bool :=
  (p.data.getLastD ' ' == '/') && decide (1 < p.data.length)

/-- `path[:len(path)-1]`. -/
def strDropLast (s : String) : String :=
  String.mk s.data.dropLast

/-- `path[1:]`. -/
def strDrop1 (s : String) : String :=
  String.mk (s.data.drop 1)

/-- The path actually handed to the first search: `lookup` strips the
trailing slash before searching when the path ends in a slash and
trailing-slash redirection is enabled. -/
def TreeMux.effPath (t : TreeMux) (p : String) : String :=
  if goTrailingSlash p && t.redirectTrailingSlash then strDropLast p else p

/-- Split a character list on a separator. -/
def splitChars (sep : Char) : List Char → List (List Char)
  | [] => [[]]
  | c :: rest =>
    if c = sep then [] :: splitChars sep rest
    else
      match splitChars sep rest with
      | [] => [[c]]
      | s :: ss => (c :: s) :: ss

/-- Modelled from the spec: the path-cleaning routine `Clean` (httptreemux's
path.go) is code of this repository that is not under src/.  Per spec section
4.3 step 3 it normalizes the path, collapsing repeated separators and
resolving `.` and `..` segments. -/
def cleanModel (p : String) : String :=
  let segs := (splitChars '/' p.data).filter (fun s => decide (s ≠ [] ∧ s ≠ ['.']))
  let segs := segs.foldl (fun acc s => if s = ['.', '.'] then acc.dropLast else acc ++ [s]) []
  String.mk ('/' :: List.intercalate ['/'] segs)

/-- The parameter-map construction of `lookup` (websocket.go lines 549-553):
`paramMap[n.leafWildcardNames[numParams-index-1]] = params[index]` for
`index` from `0` to `numParams-1`. -/
def buildParamMap (names params : List String) : List (String × String) :=
  (List.range params.length).foldl
    (fun m index => mapSet m (names.getD (params.length - index - 1) "") (params.getD index ""))
    []

/-- The tail of `lookup` after the redirect checks: build the parameter map;
a length mismatch between the collected values and the recorded wildcard
names panics (`none`). -/
def paramPhase (n : Node) (handler : Handler) (params : List String) :
    Option (LookupResult × Bool) :=
  if params.length ≠ 0 then
    if params.length ≠ n.leafWildcardNames.length then none
    else
      some ({ statusCode := 200, handler := some handler
              params := buildParamMap n.leafWildcardNames params }, true)
  else some ({ statusCode := 200, handler := some handler }, true)

/-- The zero `LookupResult` with `StatusCode = http.StatusNotFound`. -/
def notFoundResult : LookupResult := { statusCode := 404 }

/-- The OPTIONS fallback of `lookup`: a missing handler is replaced by the
configured OPTIONS handler when the method is `OPTIONS`. -/
def optionsFallback (t : TreeMux) (methode : String) (h? : Option Handler) :
    Option Handler :=
  if h?.isNone && (methode == "OPTIONS") && t.optionsHandler.isSome then
    t.optionsHandler
  else h?

/-- The trailing-slash redirect check of `lookup`, followed by the parameter
phase when no redirect applies. -/
def TreeMux.redirPhase (t : TreeMux) (methode : String) (trailingSlash : Bool)
    (path1 unescapedPath1 : String) (n : Node) (handler : Handler)
    (params : List String) : Option (LookupResult × Bool) :=
  if ((!n.isCatchAll || t.removeCatchAllTrailingSlash)
      && (trailingSlash != n.addSlash) && t.redirectTrailingSlash) then
    if (t.redirectStatusCode methode).2 then
      match (if n.addSlash then
          some (redirectHandler (unescapedPath1 ++ "/") (t.redirectStatusCode methode).1)
        else if path1 ≠ "/" then
          some (redirectHandler unescapedPath1 (t.redirectStatusCode methode).1)
        else none) with
      | some hh =>
        some ({ statusCode := (t.redirectStatusCode methode).1, handler := some hh }, true)
      | none => paramPhase n handler params
    else paramPhase n handler params
  else paramPhase n handler params

/-- The part of `lookup` shared between the direct hit and the clean-path
fall-through: OPTIONS fallback, method-not-allowed, trailing-slash redirect,
then parameter collection. -/
def TreeMux.lookupCont (t : TreeMux) (methode : String) (trailingSlash : Bool)
    (path1 unescapedPath1 : String) (n : Node) (h? : Option Handler)
    (params : List String) : Option (LookupResult × Bool) :=
  match optionsFallback t methode h? with
  | none => some ({ statusCode := 405, leafHandler := some n.leafHandler }, false)
  | some handler =>
    t.redirPhase methode trailingSlash path1 unescapedPath1 n handler params

/-- `lookup` of websocket.go, instrumented: the second component records, in
order, the paths on which the trie search was attempted (before the leading
slash is stripped off for the search call).  A `none` first component models
a panic (the index into an empty path, or the parameter-count mismatch). -/
def TreeMux.lookupMT (t : TreeMux) (request : ProxyRequest) :
    Option (LookupResult × Bool) × List String :=
  if request.path.data.length = 0 then (none, [])
  else
    match t.search request.httpMethod (strDrop1 (t.effPath request.path)) with
    | (some n, h?, params) =>
      (t.lookupCont request.httpMethod (goTrailingSlash request.path)
        (t.effPath request.path) (t.effPath request.path) n h? params,
       [t.effPath request.path])
    | (none, _, _) =>
      if t.redirectCleanPath then
        match t.search request.httpMethod
            (strDrop1 (cleanModel (t.effPath request.path))) with
        | (none, _, _) =>
          (some (notFoundResult, false),
           [t.effPath request.path, cleanModel (t.effPath request.path)])
        | (some n2, h2?, params2) =>
          if (t.redirectStatusCode request.httpMethod).2 then
            (some ({ statusCode := (t.redirectStatusCode request.httpMethod).1
                     handler := some (redirectHandler
                       (cleanModel (t.effPath request.path))
                       (t.redirectStatusCode request.httpMethod).1) }, true),
             [t.effPath request.path, cleanModel (t.effPath request.path)])
          else
            (t.lookupCont request.httpMethod (goTrailingSlash request.path)
              (t.effPath request.path) (t.effPath request.path) n2 h2? params2,
             [t.effPath request.path, cleanModel (t.effPath request.path)])
      else (some (notFoundResult, false), [t.effPath request.path])

/-- `lookup`: result and found flag; `none` models a panic. -/
def TreeMux.lookupM (t : TreeMux) (request : ProxyRequest) :
    Option (LookupResult × Bool) :=
  (t.lookupMT request).1

/-- The ordered list of paths `lookup` hands to the trie search. -/
def TreeMux.lookupTrace (t : TreeMux) (request : ProxyRequest) : List String :=
  (t.lookupMT request).2

/-- `Lookup` (the exported wrapper; the optional read lock is not modelled). -/
def TreeMux.lookupApi (t : TreeMux) (request : ProxyRequest) :
    Option (LookupResult × Bool) :=
  t.lookupM request

/-- Lexicographic (byte-wise, ascending) comparison of character lists: the
order `sort.Strings` sorts by. -/
def charsLe : List Char → List Char → Bool
  | [], _ => true
  | _ :: _, [] => false
  | a :: as, b :: bs =>
    if a.toNat < b.toNat then true
    else if b.toNat < a.toNat then false
    else charsLe as bs

/-- String comparison used by `sort.Strings`. -/
def strLe (a b : String) : Bool :=
  charsLe a.data b.data

/-- Insert into a sorted list (ascending under `strLe`). -/
def insertSorted (x : String) : List String → List String
  | [] => [x]
  | y :: ys => if strLe x y then x :: y :: ys else y :: insertSorted x ys

/-- `sort.Strings`: ascending insertion sort. -/
def sortStrings : List String → List String
  | [] => []
  | x :: xs => insertSorted x (sortStrings xs)

/-- `ServeLookupResult` of websocket.go: a missing handler dispatches to the
method-not-allowed collaborator (with the sorted, space-joined method list)
or the not-found collaborator; otherwise the handler runs. -/
def TreeMux.serveLookupResult (t : TreeMux) (req : ProxyRequest) (lr : LookupResult) :
    ProxyResponse :=
  match lr.handler with
  | some h => h req
  | none =>
    if (lr.statusCode == 405) && lr.leafHandler.isSome then
      t.methodNotAllowedHandler req
        (String.intercalate " " (sortStrings ((lr.leafHandler.getD []).map Prod.fst)))
    else t.notFoundHandler req

/-- `lookup` followed by `ServeLookupResult` on its result (the request-serving
composition shared by `ServeHTTP` and `ServeLambda`); `none` models a panic
inside `lookup`. -/
def TreeMux.lookupAndServe (t : TreeMux) (req : ProxyRequest) : Option ProxyResponse :=
  (t.lookupM req).map (fun r => t.serveLookupResult req r.1)

/-- `New()` of websocket.go: the default configuration (the `/:__stage__`
group prefix affects registration, which happens through the search function
here). -/
def mkNew (search : String → String → Option Node × Option Handler × List String)
    (stageVars : List (String × List (String × String))) : TreeMux :=
  { search := search
    notFoundHandler := lambdaNotFound
    methodNotAllowedHandler := lambdaNotAllowed
    headCanUseGet := true
    redirectTrailingSlash := true
    redirectCleanPath := true
    redirectBehavior := .redirect301
    redirectMethodBehavior := []
    stageVariables := stageVars }

/-- `GenerateArn` of lambda_utils.go (the two environment variables are not
modelled and read as empty strings, as in an unconfigured local run). -/
def generateArn (event : ProxyRequest) : String :=
  "arn:aws:execute-api:::localhost/*/" ++ event.httpMethod ++ "/" ++ event.path

/-- `GenerateLambdaAuthorizer` of lambda_utils.go. -/
def generateLambdaAuthorizer (event : ProxyRequest) : AuthorizerRequest :=
  { methodArn := generateArn event
    path := event.path
    httpMethod := event.httpMethod
    headers := event.headers
    queryStringParameters := event.queryStringParameters
    pathParameters := event.pathParameters
    stageVariables := event.stageVariables }

/-- The stage-injection step of `ServeHTTP` (websocket.go lines 618-621):
store the captured `__stage__` parameter as the request's stage, inject the
configured stage-variable set, and delete the stage entry from the parameter
map before exposing it as the request's path parameters. -/
def TreeMux.stageInject (t : TreeMux) (event : ProxyRequest) (result : LookupResult) :
    ProxyRequest × LookupResult :=
  let stage := (alookup "__stage__" result.params).getD ""
  let event := { event with
    requestContext := { event.requestContext with stage := stage }
    stageVariables := (alookup stage t.stageVariables).getD [] }
  let params2 := result.params.filter (fun p => !decide (p.1 = "__stage__"))
  ({ event with pathParameters := params2 }, { result with params := params2 })

/-- The authorization step of `ServeHTTP` (websocket.go lines 625-631): when a
hook is configured it runs before dispatch; its error, if any, is only
printed, and the context of the returned response is stored on the request
unconditionally. -/
def TreeMux.authApply (t : TreeMux) (event : ProxyRequest) : ProxyRequest :=
  match t.authorizer with
  | none => event
  | some f =>
    let r := f (generateLambdaAuthorizer event)
    { event with requestContext := { event.requestContext with authorizer := r.1.context } }

/-- The tail of `ServeHTTP` after stage injection: authorization step, then
`ServeLookupResult`. -/
def TreeMux.dispatchAfterStage (t : TreeMux) (event : ProxyRequest)
    (result : LookupResult) : ProxyResponse :=
  t.serveLookupResult (t.authApply event) result

/-- `ServeHTTP` from the point where the canonical request exists
(websocket.go lines 617-633): lookup, stage injection, authorization,
dispatch.  `none` models a panic inside `lookup`. -/
def TreeMux.serveHTTPCore (t : TreeMux) (event : ProxyRequest) : Option ProxyResponse :=
  match t.lookupM event with
  | none => none
  | some (result, _) =>
    let er := t.stageInject event result
    some (t.dispatchAfterStage er.1 er.2)

/-- Base64 value of one standard-alphabet character. -/
def b64Val (c : Char) : Option Nat :=
  if 'A' ≤ c ∧ c ≤ 'Z' then some (c.toNat - 'A'.toNat)
  else if 'a' ≤ c ∧ c ≤ 'z' then some (c.toNat - 'a'.toNat + 26)
  else if '0' ≤ c ∧ c ≤ '9' then some (c.toNat - '0'.toNat + 52)
  else if c = '+' then some 62
  else if c = '/' then some 63
  else none

/-- Decode base64 quads (standard alphabet, mandatory padding): the semantics
of Go's `base64.StdEncoding` on newline-free input.  `none` models the
decode error. -/
def decodeQuads : List Char → Option (List Nat)
  | [] => some []
  | a :: b :: c :: d :: rest =>
    match b64Val a, b64Val b with
    | some va, some vb =>
      if c = '=' then
        if d = '=' && rest.isEmpty then some [va * 4 + vb / 16] else none
      else
        match b64Val c with
        | some vc =>
          if d = '=' then
            if rest.isEmpty then some [va * 4 + vb / 16, (vb % 16) * 16 + vc / 4]
            else none
          else
            match b64Val d with
            | some vd =>
              (decodeQuads rest).map
                (fun tl => (va * 4 + vb / 16) :: ((vb % 16) * 16 + vc / 4) ::
                  ((vc % 4) * 64 + vd) :: tl)
            | none => none
        | none => none
    | _, _ => none
  | _ => none

/-- `base64.StdEncoding.DecodeString`: newlines are skipped, then the input is
decoded quad by quad; `none` models the returned error. -/
def base64Decode (s : String) : Option (List Nat) :=
  decodeQuads (s.data.filter (fun c => decide (c ≠ '\r' ∧ c ≠ '\n')))

/-- UTF-8 bytes of a string, as natural numbers. -/
def strBytes (s : String) : List Nat :=
  s.toUTF8.toList.map UInt8.toNat

/-- The body text written on a base64 decode failure
(`"Error on decoding base64: %s\n"`; the wrapped library error message is
abstracted to a fixed description). -/
def base64ErrorBody : String :=
  "Error on decoding base64: illegal base64 data\n"

/-- What `ResToHttp` writes to the socket: the headers, one status code, and
the body bytes. -/
structure HttpWritten where
  headers : List (String × String) := []
  statusCode : Nat := 0
  body : List Nat := []
  deriving DecidableEq

/-- `ResToHttp` of lambda_utils.go: headers, then the response's own status
code, then the body — decoded when flagged base64, or the inline textual
error message when decoding fails.  It is a total function: no branch aborts
the connection. -/
def resToHttp (res : ProxyResponse) : HttpWritten :=
  { headers := res.headers
    statusCode := res.statusCode
    body :=
      if res.isBase64Encoded then
        match base64Decode res.body with
        | none => strBytes base64ErrorBody
        | some data => data
      else strBytes res.body }

/-- Hexadecimal value of a character (Go's `ishex`/`unhex`). -/
def hexVal (c : Char) : Option Nat :=
  if '0' ≤ c ∧ c ≤ '9' then some (c.toNat - '0'.toNat)
  else if 'a' ≤ c ∧ c ≤ 'f' then some (c.toNat - 'a'.toNat + 10)
  else if 'A' ≤ c ∧ c ≤ 'F' then some (c.toNat - 'A'.toNat + 10)
  else none

/-- `url.QueryUnescape` on a character list: `+` becomes a space, `%XY` is a
hex-encoded byte, a malformed escape is an error (`none`). -/
def unescChars : List Char → Option (List Char)
  | [] => some []
  | '+' :: rest => (unescChars rest).map (fun l => ' ' :: l)
  | '%' :: a :: b :: rest =>
    match hexVal a, hexVal b with
    | some x, some y => (unescChars rest).map (fun l => Char.ofNat (16 * x + y) :: l)
    | _, _ => none
  | ['%'] => none
  | ['%', _] => none
  | c :: rest => (unescChars rest).map (fun l => c :: l)

/-- Append one parsed query value: Go's `url.Values` keeps, per key, the
values in order of appearance, keys in order of first appearance. -/
def addQueryValue (vals : List (String × List String)) (k v : String) :
    List (String × List String) :=
  match vals with
  | [] => [(k, [v])]
  | (k', vs) :: rest =>
    if k' = k then (k', vs ++ [v]) :: rest else (k', vs) :: addQueryValue rest k v

/-- One `key=value` component of `url.ParseQuery`: components containing a
semicolon or with an empty key are dropped, as is any component whose key or
value fails to unescape. -/
def parseQueryComp (vals : List (String × List String)) (comp : List Char) :
    List (String × List String) :=
  if comp.contains ';' then vals
  else
    let key := comp.takeWhile (fun c => c ≠ '=')
    let rest := comp.drop key.length
    let value := rest.drop 1
    if key.isEmpty then vals
    else
      match unescChars key, unescChars value with
      | some k, some v => addQueryValue vals (String.mk k) (String.mk v)
      | _, _ => vals

/-- `url.ParseQuery` as used through `req.URL.Query()`: split on `&`, parse
each component, ignore errors. -/
def parseQuery (raw : String) : List (String × List String) :=
  ((splitChars '&' raw.data).filter (fun c => decide (c ≠ []))).foldl parseQueryComp []

/-- The query flattening of `RequestToLambda` (lambda_utils.go lines 86-89):
`e.QueryStringParameters[i] = req.URL.Query().Get(i)` for every key —
`url.Values.Get` returns the first value recorded for the key. -/
def requestQueryParams (rawQuery : String) : List (String × String) :=
  (parseQuery rawQuery).map (fun p => (p.1, p.2.headD ""))

/-- Opening brace character (written by code point to keep string literals
brace-free). -/
def braceOpen : Char := Char.ofNat 123

/-- Closing brace character. -/
def braceClose : Char := Char.ofNat 125

/-- `strings.ReplaceAll`, fuelled (each step consumes at least one input
character, so the fuel `length + 1` used by `goReplaceAll` never runs out
for a non-empty pattern). -/
def goReplaceAllF : Nat → List Char → List Char → List Char → List Char
  | 0, s, _, _ => s
  | fuel + 1, s, pat, repl =>
    match s with
    | [] => []
    | c :: rest =>
      if pat ≠ [] ∧ pat.isPrefixOf s then
        repl ++ goReplaceAllF fuel (s.drop pat.length) pat repl
      else c :: goReplaceAllF fuel rest pat repl

/-- `strings.ReplaceAll` on strings. -/
def goReplaceAll (s pat repl : String) : String :=
  String.mk (goReplaceAllF (s.data.length + 1) s.data pat.data repl.data)

/-- One item of a parsed template: literal text, the bare `dot` action, or a
chain of field accesses. -/
inductive TItem where
  | text (s : String)
  | dot
  | field (names : List String)
  deriving DecidableEq

/-- Scan for the action opener (two consecutive opening braces): returns the
text before it and, when found, the remainder after it. -/
def splitAtOpen : List Char → List Char × Option (List Char)
  | [] => ([], none)
  | c :: rest =>
    if c = braceOpen then
      match rest with
      | [] => ([c], none)
      | c2 :: rest2 =>
        if c2 = braceOpen then ([], some rest2)
        else
          match splitAtOpen rest with
          | (t, r) => (c :: t, r)
    else
      match splitAtOpen rest with
      | (t, r) => (c :: t, r)

/-- Characters legal in a template field name. -/
def isIdentChar (c : Char) : Bool :=
  c.isAlphanum || c = '_'

/-- Expect the action closer (two consecutive closing braces), allowing
spaces before it. -/
def expectClose (cs : List Char) : Option (List Char) :=
  match cs.dropWhile (fun c => c = ' ') with
  | c1 :: c2 :: rest => if c1 = braceClose ∧ c2 = braceClose then some rest else none
  | _ => none

/-- Parse the dotted field chain of an action (model of `text/template`
restricted to the field-access actions the `UseTemplate` transformation can
produce); `none` models a template parse error. -/
def parseFieldChainF : Nat → List Char → List String → Option (TItem × List Char)
  | 0, _, _ => none
  | fuel + 1, cs, names =>
    let ident := cs.takeWhile isIdentChar
    let rest := cs.drop ident.length
    if ident.isEmpty then
      if names.isEmpty then (expectClose rest).map (fun r => (TItem.dot, r))
      else none
    else
      match rest with
      | '.' :: more => parseFieldChainF fuel more (names ++ [String.mk ident])
      | _ => (expectClose rest).map (fun r => (TItem.field (names ++ [String.mk ident]), r))

/-- Parse one action body (after the opener): spaces, a dot, a field chain. -/
def parseAction (cs : List Char) : Option (TItem × List Char) :=
  match cs.dropWhile (fun c => c = ' ') with
  | '.' :: rest => parseFieldChainF (rest.length + 1) rest []
  | _ => none

/-- Parse a whole template into items, fuelled (each action consumes the
two-character opener, so fuel `length + 1` suffices). -/
def parseTmplF : Nat → List Char → Option (List TItem)
  | 0, _ => none
  | fuel + 1, cs =>
    match splitAtOpen cs with
    | (t, none) => some [TItem.text (String.mk t)]
    | (t, some rest) =>
      match parseAction rest with
      | none => none
      | some (item, rest2) =>
        match parseTmplF fuel rest2 with
        | none => none
        | some items => some (TItem.text (String.mk t) :: item :: items)

/-- Parse a template. -/
def parseTmpl (cs : List Char) : Option (List TItem) :=
  parseTmplF (cs.length + 1) cs

/-- Go's `fmt` rendering of a `map[string]string` (keys sorted), used when a
template prints the whole data value. -/
def printGoStringMap (m : List (String × String)) : String :=
  let sorted := List.insertionSort (fun a b => a.1 ≤ b.1) m
  "map[" ++ String.intercalate " " (sorted.map (fun p => p.1 ++ ":" ++ p.2)) ++ "]"

/-- Execute template items against a `map[string]string`: returns the output
written so far and whether execution stopped with an error.  A single field
resolves through the map (a missing key prints `<no value>`); a chain of two
or more fields always fails on string data, producing no further output —
this models `text/template` execution, whose error `UseTemplate` ignores. -/
def execTmpl : List TItem → List (String × String) → String × Bool
  | [], _ => ("", false)
  | TItem.text s :: rest, m =>
    let r := execTmpl rest m
    (s ++ r.1, r.2)
  | TItem.dot :: rest, m =>
    let r := execTmpl rest m
    (printGoStringMap m ++ r.1, r.2)
  | TItem.field [f] :: rest, m =>
    let v := match alookup f m with | some s => s | none => "<no value>"
    let r := execTmpl rest m
    (v ++ r.1, r.2)
  | TItem.field _ :: _, _ => ("", true)

/-- The brace-to-action rewriting `UseTemplate` performs on the resource
before parsing it as a template. -/
def resourceToTemplate (resource : String) : String :=
  goReplaceAll
    (goReplaceAll
      (goReplaceAll resource (String.mk [braceOpen]) (String.mk [braceOpen, braceOpen, '.']))
      (String.mk [braceClose]) (String.mk [braceClose, braceClose]))
    "+" ""

/-- `UseTemplate` of lambda_utils.go: render the rewritten resource against
the path parameters; a template parse error falls back to the event's path,
and an execution error is ignored, leaving whatever output was produced. -/
def useTemplate (event : ProxyRequest) : String :=
  match parseTmpl (resourceToTemplate event.resource).data with
  | none => event.path
  | some items => (execTmpl items event.pathParameters).1

/-- Whether rendering the event's resource template fails (at parse time or
at execution time). -/
def renderFails (event : ProxyRequest) : Bool :=
  match parseTmpl (resourceToTemplate event.resource).data with
  | none => true
  | some items => (execTmpl items event.pathParameters).2

/-- `CleanPath` of lambda_utils.go. -/
def cleanPathTmpl (event : ProxyRequest) : String :=
  useTemplate event

/-- The `"\x7bproxy+\x7d"` literal `ServeLambda` looks for in the resource. -/
def proxyPat : String :=
  String.mk [braceOpen, 'p', 'r', 'o', 'x', 'y', '+', braceClose]

/-- `strings.Contains` on character lists. -/
def containsSub (pat : List Char) : List Char → Bool
  | [] => pat.isEmpty
  | c :: rest => pat.isPrefixOf (c :: rest) || containsSub pat rest

/-- `ServeLambda` of websocket.go: replace the path by the rendered resource,
look it up, copy the parameters onto the request for catch-all resources,
and serve.  `none` models a panic inside `lookup`. -/
def TreeMux.serveLambdaCore (t : TreeMux) (req : ProxyRequest) : Option ProxyResponse :=
  let req := { req with path := cleanPathTmpl req }
  match t.lookupM req with
  | none => none
  | some (result, _) =>
    let req :=
      if containsSub proxyPat.data req.resource.data then
        { req with pathParameters := result.params }
      else req
    some (t.serveLookupResult req result)

/-! ### Concrete routers, nodes and requests used by the witnesses and counterexamples -/

/-- A mux with trailing-slash redirection on and clean-path redirection off,
with an empty route table. -/
def c3mux : TreeMux := { redirectTrailingSlash := true }

/-- A request for `/a/`. -/
def c3req : ProxyRequest := { httpMethod := "GET", path := "/a/" }

/-- A mux with both redirect options on and an empty route table. -/
def c3mux2 : TreeMux := { redirectTrailingSlash := true, redirectCleanPath := true }

/-- The C9 counterexample event: resource `/x\x7ba.b\x7d` parses as a template
but fails while rendering against parameters binding `a` to a string. -/
def c9ev : ProxyRequest :=
  { resource := "/x\x7ba.b\x7d", path := "/orig", pathParameters := [("a", "x")] }

/-- A mux configured with one stage entry, for the C5 witness. -/
def c5mux : TreeMux := { stageVariables := [("dev", [("k1", "v1")])] }

/-- A lookup result carrying a captured stage and one real parameter. -/
def c5res : LookupResult := { params := [("__stage__", "dev"), ("name", "bob")] }

/-- The hook of the C6 counterexample: it fails with an error while also
returning a populated context. -/
def c6hook : AuthorizerRequest → AuthorizerResponse × Option String :=
  fun _ => ({ context := [("a", "b")] }, some "boom")

/-- A mux with the failing hook installed. -/
def c6mux : TreeMux := { authorizer := some c6hook }

/-- The request of the C6 counterexample. -/
def c6ev : ProxyRequest := { httpMethod := "GET", path := "/p" }

/-- The handler of the C6 witness: echoes the authorizer context entry `a`. -/
def c6handler : Handler :=
  fun req => { statusCode := 200, body := (alookup "a" req.requestContext.authorizer).getD "-" }

/-- A lookup result resolving to `c6handler`. -/
def c6res : LookupResult := { statusCode := 200, handler := some c6handler }

/-- A handler for the C2 witness node. -/
def c2h : Handler := fun _ => { statusCode := 200 }

/-- The C2 witness node: `PUT` and `GET` registered (in unsorted order). -/
def c2n : Node := { leafHandler := [("PUT", c2h), ("GET", c2h)] }

/-- The C2 witness search: one node at path `a`, resolving the handler by
method through its leaf-handler map. -/
def c2search : String → String → Option Node × Option Handler × List String :=
  fun m p => if p = "a" then (some c2n, alookup m c2n.leafHandler, []) else (none, none, [])

/-- The handler of the C4 nodes. -/
def c4h : Handler := fun _ => { statusCode := 200 }

/-- The C4 slash-redirect node: `GET /a` registered, no `addSlash`. -/
def c4n : Node := { leafHandler := [("GET", c4h)] }

/-- The C4 search: a single node at `a`. -/
def c4search : String → String → Option Node × Option Handler × List String :=
  fun _ p => if p = "a" then (some c4n, some c4h, []) else (none, none, [])

/-- The C4 router, with the `New()` defaults. -/
def c4mux : TreeMux := mkNew c4search []

/-- The C4 request: `GET /a/` carrying a query parameter. -/
def c4req : ProxyRequest :=
  { httpMethod := "GET", path := "/a/", queryStringParameters := [("q", "1")] }

/-- The C4 clean-path node. -/
def c4bn : Node := { leafHandler := [("GET", c4h)] }

/-- The C4 clean-path search: a single node at `x`. -/
def c4bsearch : String → String → Option Node × Option Handler × List String :=
  fun _ p => if p = "x" then (some c4bn, some c4h, []) else (none, none, [])

/-- The C4 clean-path router. -/
def c4bmux : TreeMux := mkNew c4bsearch []

/-- The C4 clean-path request (`//x` needs cleaning to `/x`). -/
def c4breq : ProxyRequest := { httpMethod := "GET", path := "//x" }

/-- The handler of the C1 witness. -/
def c1h : Handler := fun _ => { statusCode := 200 }

/-- The C1 witness node: wildcard names `a`, `b` recorded root-to-leaf. -/
def c1n : Node := { leafWildcardNames := ["a", "b"], leafHandler := [("GET", c1h)] }

/-- The C1 witness search: values collected leaf-to-root as `v1`, `v0`. -/
def c1search : String → String → Option Node × Option Handler × List String :=
  fun _ p => if p = "x" then (some c1n, some c1h, ["v1", "v0"]) else (none, none, [])

/-- The C1 witness router. -/
def c1mux : TreeMux := mkNew c1search []

/-- The C1 witness request. -/
def c1req : ProxyRequest := { httpMethod := "GET", path := "/x" }

/-! ### Helper lemmas about the association-list map model -/

theorem string_data_ne_nil {p : String} (h : p ≠ "") : p.data ≠ [] := by
  intro hd
  apply h
  cases p with
  | mk d =>
    simp only [String.data] at hd
    subst hd
    rfl

theorem alookup_cons {β : Type} (k a : String) (b : β) (rest : List (String × β)) :
    alookup k ((a, b) :: rest) = if a = k then some b else alookup k rest := rfl

theorem alookup_mapSet_self (m : List (String × String)) (k v : String) :
    alookup k (mapSet m k v) = some v := by
  simp [mapSet, alookup]

theorem alookup_filter_self (k : String) (m : List (String × String)) :
    alookup k (m.filter (fun p => !decide (p.1 = k))) = none := by
  induction m with
  | nil => rfl
  | cons p rest ih =>
    obtain ⟨a, b⟩ := p
    by_cases h : a = k
    · rw [List.filter_cons, if_neg (by simp [h])]
      exact ih
    · rw [List.filter_cons, if_pos (by simp [h]), alookup_cons, if_neg h]
      exact ih

theorem alookup_filter_other (k k' : String) (h : k' ≠ k) (m : List (String × String)) :
    alookup k' (m.filter (fun p => !decide (p.1 = k))) = alookup k' m := by
  induction m with
  | nil => rfl
  | cons p rest ih =>
    obtain ⟨a, b⟩ := p
    by_cases hp : a = k
    · have h2 : ¬ a = k' := by rw [hp]; exact fun he => h he.symm
      rw [List.filter_cons, if_neg (by simp [hp]), ih, alookup_cons, if_neg h2]
    · rw [List.filter_cons, if_pos (by simp [hp]), alookup_cons, alookup_cons, ih]

theorem alookup_mapSet_other (m : List (String × String)) (k v k' : String)
    (h : k' ≠ k) : alookup k' (mapSet m k v) = alookup k' m := by
  have hk : k ≠ k' := fun he => h he.symm
  simp only [mapSet, alookup, if_neg hk]
  exact alookup_filter_other k k' h m

theorem alookup_foldl_mapSet_not_mem (writes : List (String × String))
    (m0 : List (String × String)) (k : String) (hk : k ∉ writes.map Prod.fst) :
    alookup k (writes.foldl (fun m p => mapSet m p.1 p.2) m0) = alookup k m0 := by
  induction writes generalizing m0 with
  | nil => rfl
  | cons w rest ih =>
    simp only [List.map_cons, List.mem_cons, not_or] at hk
    simp only [List.foldl_cons]
    rw [ih _ hk.2, alookup_mapSet_other _ _ _ _ hk.1]

theorem alookup_foldl_mapSet_mem (writes : List (String × String))
    (m0 : List (String × String)) (k v : String)
    (hnd : (writes.map Prod.fst).Nodup) (hmem : (k, v) ∈ writes) :
    alookup k (writes.foldl (fun m p => mapSet m p.1 p.2) m0) = some v := by
  induction writes generalizing m0 with
  | nil => cases hmem
  | cons w rest ih =>
    simp only [List.map_cons, List.nodup_cons] at hnd
    rcases List.mem_cons.mp hmem with hw | hw
    · subst hw
      simp only [List.foldl_cons]
      rw [alookup_foldl_mapSet_not_mem _ _ _ hnd.1]
      exact alookup_mapSet_self m0 k v
    · simp only [List.foldl_cons]
      exact ih _ hnd.2 hw

/-! ### C10 : the empty-path panic in `lookup` -/

/-- C10: for a request whose path is the empty string, `lookup` (and with it
`Lookup` and `ServeHTTP`, which call it) hits the unguarded byte access
`path[pathLen-1]` and panics (modelled as `none`); for every non-empty path
that access is in bounds. -/
theorem c10_lookup_empty_path_panics (t : TreeMux) (req : ProxyRequest) (p : String)
    (hreq : req.path = "") (hp : p ≠ "") :
    t.lookupM req = none ∧ t.lookupApi req = none ∧ t.serveHTTPCore req = none ∧
    (goStrIndex p (p.data.length - 1)).isSome = true := by
  have hlen : req.path.data.length = 0 := by rw [hreq]; rfl
  have hlook : t.lookupM req = none := by
    unfold TreeMux.lookupM TreeMux.lookupMT
    rw [if_pos hlen]
  refine ⟨hlook, hlook, ?_, ?_⟩
  · unfold TreeMux.serveHTTPCore
    rw [hlook]
  · have hne : p.data ≠ [] := string_data_ne_nil hp
    have hlt : p.data.length - 1 < p.data.length := by
      cases hd : p.data with
      | nil => exact absurd hd hne
      | cons c cs => simp
    unfold goStrIndex
    rw [List.get?_eq_get hlt]
    rfl

/-- Witness: the empty-path request panics on the default router; the access
is in bounds on the non-empty path `/a`. -/
theorem c10_lookup_empty_path_panics_witness :
    ({} : TreeMux).lookupM { path := "" } = none ∧
    (goStrIndex "/a" 1).isSome = true := by
  have h := c10_lookup_empty_path_panics {} { path := "" } "/a" rfl (by decide)
  exact ⟨h.1, h.2.2.2⟩

/-! ### C3 : the order of trie searches inside `lookup` -/

/-- C3 counterexample: with trailing-slash redirection enabled, the first (and
only) search for `/a/` is performed on `/a` — the trailing slash is stripped
before the first search, so the dispatcher never searches the path as given. -/
theorem c3_first_search_not_as_given :
    c3mux.lookupTrace c3req = ["/a"] ∧
    (c3mux.lookupTrace c3req).head? ≠ some c3req.path := by
  constructor
  · rfl
  · decide

/-- C3 amended: `lookup` performs a single initial search on the path with
the trailing slash already removed (when the path ends in a slash and
trailing-slash redirection is enabled; otherwise on the path as given), and
retries exactly once, on the cleaned path, only when that initial search
found no node and clean-path redirection is enabled — so the clean-path
retry always comes last. -/
theorem c3_search_order (t : TreeMux) (req : ProxyRequest) (hpath : req.path ≠ "") :
    t.lookupTrace req =
      if ((t.search req.httpMethod (strDrop1 (t.effPath req.path))).1.isNone
          && t.redirectCleanPath)
      then [t.effPath req.path, cleanModel (t.effPath req.path)]
      else [t.effPath req.path] := by
  have hlen : ¬ req.path.data.length = 0 := by
    intro h0
    exact string_data_ne_nil hpath (List.length_eq_zero.mp h0)
  unfold TreeMux.lookupTrace TreeMux.lookupMT
  rw [if_neg hlen]
  rcases hs : t.search req.httpMethod (strDrop1 (t.effPath req.path)) with ⟨n?, h?, ps⟩
  cases n? with
  | some n => simp [hs]
  | none =>
    cases hc : t.redirectCleanPath with
    | false => simp [hs, hc]
    | true =>
      rcases hs2 : t.search req.httpMethod (strDrop1 (cleanModel (t.effPath req.path)))
        with ⟨n2?, h2?, ps2⟩
      cases n2? with
      | none => simp [hs, hc, hs2]
      | some n2 =>
        by_cases hr : (t.redirectStatusCode req.httpMethod).2 <;>
          simp [hs, hc, hs2, hr]

/-- Witness for the amended C3 statement: for `/a/` with an empty route table
the searches are, in order, `/a` (slash pre-stripped) then the cleaned path. -/
theorem c3_search_order_witness : c3mux2.lookupTrace c3req = ["/a", "/a"] := by
  rw [c3_search_order c3mux2 c3req (by decide)]
  rfl

/-! ### C8 : duplicate query keys are flattened first-value-wins -/

/-- C8 counterexample: for the raw query `a=1&a=2` the flattened mapping binds
`a` to the first supplied value `1`, not the last value `2` as claimed. -/
theorem c8_last_value_counterexample :
    alookup "a" (requestQueryParams "a=1&a=2") = some "1" ∧
    alookup "a" (requestQueryParams "a=1&a=2") ≠ some "2" := by
  constructor
  · rfl
  · decide

theorem alookup_map_headD (k : String) (l : List (String × List String)) :
    alookup k (l.map (fun p => (p.1, p.2.headD ""))) =
      (alookup k l).map (fun vs => vs.headD "") := by
  induction l with
  | nil => rfl
  | cons p rest ih =>
    obtain ⟨a, b⟩ := p
    by_cases h : a = k
    · simp only [List.map_cons, alookup_cons, if_pos h]
      rfl
    · simp only [List.map_cons, alookup_cons, if_neg h]
      exact ih

/-- C8 amended: the flattened query-parameter mapping binds each key to the
first value supplied for it (Go's `url.Values.Get` returns the first value),
not the last. -/
theorem c8_first_value_wins (raw : String) (k : String) (vs : List String)
    (h : alookup k (parseQuery raw) = some vs) :
    alookup k (requestQueryParams raw) = some (vs.headD "") := by
  unfold requestQueryParams
  rw [alookup_map_headD, h]
  rfl

/-- Witness: instantiating the amended C8 statement on `a=1&a=2`. -/
theorem c8_first_value_wins_witness :
    alookup "a" (requestQueryParams "a=1&a=2") = some "1" := by
  exact c8_first_value_wins "a=1&a=2" "a" ["1", "2"] (by rfl)

/-! ### C7 : base64 decoding failures degrade, never abort -/

/-- C7: the socket serializer is a total function of the response — no branch
aborts.  For a base64-flagged response it writes the response's own status
code unchanged in both branches; an undecodable body degrades to the inline
textual error message, a decodable one is written as the decoded bytes. -/
theorem c7_base64_decode_degrades (res : ProxyResponse) (hb : res.isBase64Encoded = true) :
    (base64Decode res.body = none →
      resToHttp res = { headers := res.headers, statusCode := res.statusCode,
                        body := strBytes base64ErrorBody }) ∧
    (∀ d, base64Decode res.body = some d →
      resToHttp res = { headers := res.headers, statusCode := res.statusCode,
                        body := d }) ∧
    (resToHttp res).statusCode = res.statusCode := by
  refine ⟨?_, ?_, ?_⟩
  · intro hd
    unfold resToHttp
    rw [hb, hd]
    rfl
  · intro d hd
    unfold resToHttp
    rw [hb, hd]
    rfl
  · unfold resToHttp
    rfl

/-- Witness: both branches of the C7 statement at concrete responses — an
invalid body (`"!!"`) keeps status 503 with the textual error body, a valid
body (`"aGk="`) keeps status 201 with the decoded bytes. -/
theorem c7_base64_decode_degrades_witness :
    resToHttp { statusCode := 503, body := "!!", isBase64Encoded := true } =
      { headers := [], statusCode := 503, body := strBytes base64ErrorBody } ∧
    resToHttp { statusCode := 201, body := "aGk=", isBase64Encoded := true } =
      { headers := [], statusCode := 201, body := [104, 105] } := by
  constructor
  · exact (c7_base64_decode_degrades _ rfl).1 (by rfl)
  · exact (c7_base64_decode_degrades _ rfl).2.1 [104, 105] (by rfl)

/-! ### C9 : template render failure handling in `UseTemplate` -/

/-- C9 counterexample: the resource template of `c9ev` fails to render, yet
the path used for routing is the partially rendered output `/x`, not the
event's original literal path `/orig`. -/
theorem c9_exec_failure_partial_output :
    renderFails c9ev = true ∧ cleanPathTmpl c9ev = "/x" ∧ cleanPathTmpl c9ev ≠ c9ev.path := by
  refine ⟨rfl, rfl, ?_⟩
  decide

/-- C9 amended: rendering is a total function and never fatal; a template
**parse** failure falls back to the event's original literal path unchanged,
while an **execution** failure leaves the partially rendered output (which is
what the routing path is then set to). -/
theorem c9_render_failure_behavior (event : ProxyRequest) :
    (parseTmpl (resourceToTemplate event.resource).data = none →
      useTemplate event = event.path) ∧
    (∀ items, parseTmpl (resourceToTemplate event.resource).data = some items →
      useTemplate event = (execTmpl items event.pathParameters).1) := by
  constructor
  · intro h
    unfold useTemplate
    rw [h]
  · intro items h
    unfold useTemplate
    rw [h]

/-- Witness: the resource `\x7b` (an unterminated action after rewriting)
fails to parse, and the original path is used unchanged. -/
theorem c9_render_failure_behavior_witness :
    useTemplate { resource := "\x7b", path := "/orig" } = "/orig" := by
  exact (c9_render_failure_behavior _).1 (by rfl)

/-! ### C5 : stage injection in socket-serving mode -/

/-- C5: the stage-injection step of `ServeHTTP` makes the captured
`__stage__` value the request's stage identifier, injects exactly the
configured variable set for that stage, removes the stage entry from the
exposed path-parameter mapping, and leaves every other parameter binding
unchanged. -/
theorem c5_stage_injection (t : TreeMux) (event : ProxyRequest) (result : LookupResult)
    (s : String) (vars : List (String × String))
    (hs : alookup "__stage__" result.params = some s)
    (hv : alookup s t.stageVariables = some vars) :
    (t.stageInject event result).1.requestContext.stage = s ∧
    (t.stageInject event result).1.stageVariables = vars ∧
    alookup "__stage__" (t.stageInject event result).1.pathParameters = none ∧
    ∀ k, k ≠ "__stage__" →
      alookup k (t.stageInject event result).1.pathParameters = alookup k result.params := by
  refine ⟨?_, ?_, ?_, ?_⟩
  · show (alookup "__stage__" result.params).getD "" = s
    rw [hs]
    rfl
  · show (alookup ((alookup "__stage__" result.params).getD "") t.stageVariables).getD [] = vars
    rw [hs]
    show (alookup s t.stageVariables).getD [] = vars
    rw [hv]
    rfl
  · show alookup "__stage__"
      (result.params.filter (fun p => !decide (p.1 = "__stage__"))) = none
    exact alookup_filter_self _ _
  · intro k hk
    show alookup k (result.params.filter (fun p => !decide (p.1 = "__stage__")))
      = alookup k result.params
    exact alookup_filter_other _ k hk _

/-- Witness: instantiating C5 on `c5mux`/`c5res`. -/
theorem c5_stage_injection_witness :
    (c5mux.stageInject {} c5res).1.requestContext.stage = "dev" ∧
    (c5mux.stageInject {} c5res).1.stageVariables = [("k1", "v1")] ∧
    alookup "__stage__" (c5mux.stageInject {} c5res).1.pathParameters = none ∧
    alookup "name" (c5mux.stageInject {} c5res).1.pathParameters
      = alookup "name" c5res.params := by
  have h := c5_stage_injection c5mux {} c5res "dev" [("k1", "v1")] (by rfl) (by rfl)
  exact ⟨h.1, h.2.1, h.2.2.1, h.2.2.2 "name" (by decide)⟩

/-! ### C6 : fail-open authorization -/

/-- C6 counterexample: the hook returns an error, yet the request's
authorizer context after the authorization step is the populated context the
hook returned alongside the error — not the empty/zero context the claim
states (`ServeHTTP` stores `res.Context` unconditionally). -/
theorem c6_error_context_populated :
    (c6hook (generateLambdaAuthorizer c6ev)).2 = some "boom" ∧
    (c6mux.authApply c6ev).requestContext.authorizer = [("a", "b")] ∧
    ([("a", "b")] : List (String × String)) ≠ [] := by
  refine ⟨rfl, rfl, by decide⟩

/-- C6 amended: when the configured hook returns an error, dispatch still
proceeds to the handler (the failure is only recorded), and the request's
authorizer context is whatever context the hook returned alongside the error
— the empty context exactly when the hook returns the zero response, which is
the Go convention the spec assumes. -/
theorem c6_fail_open_dispatch (t : TreeMux) (event : ProxyRequest)
    (result : LookupResult)
    (f : AuthorizerRequest → AuthorizerResponse × Option String)
    (res : AuthorizerResponse) (e : String) (h : Handler)
    (hf : t.authorizer = some f)
    (hr : f (generateLambdaAuthorizer event) = (res, some e))
    (hh : result.handler = some h) :
    t.dispatchAfterStage event result =
      h { event with requestContext :=
            { event.requestContext with authorizer := res.context } } ∧
    (t.authApply event).requestContext.authorizer = res.context := by
  have ha : t.authApply event =
      { event with requestContext :=
          { event.requestContext with authorizer := res.context } } := by
    unfold TreeMux.authApply
    rw [hf]
    show { event with requestContext := { event.requestContext with
      authorizer := (f (generateLambdaAuthorizer event)).1.context } } = _
    rw [hr]
  constructor
  · unfold TreeMux.dispatchAfterStage TreeMux.serveLookupResult
    rw [ha, hh]
  · rw [ha]

/-- Witness: with the erroring hook installed, dispatch reaches the handler,
which observes the context the hook returned. -/
theorem c6_fail_open_dispatch_witness :
    c6mux.dispatchAfterStage c6ev c6res = { statusCode := 200, body := "b" } ∧
    (c6mux.authApply c6ev).requestContext.authorizer = [("a", "b")] := by
  have h := c6_fail_open_dispatch c6mux c6ev c6res c6hook
    { context := [("a", "b")] } "boom" c6handler rfl rfl rfl
  refine ⟨?_, h.2⟩
  rw [h.1]
  rfl

/-! ### Reduction lemmas for `lookup` -/

theorem lookupM_cont (t : TreeMux) (req : ProxyRequest) (n : Node)
    (h? : Option Handler) (ps : List String) (hpath : req.path ≠ "")
    (hs : t.search req.httpMethod (strDrop1 (t.effPath req.path)) = (some n, h?, ps)) :
    t.lookupM req = t.lookupCont req.httpMethod (goTrailingSlash req.path)
      (t.effPath req.path) (t.effPath req.path) n h? ps := by
  have hlen : ¬ req.path.data.length = 0 := fun h0 =>
    string_data_ne_nil hpath (List.length_eq_zero.mp h0)
  unfold TreeMux.lookupM TreeMux.lookupMT
  rw [if_neg hlen, hs]

theorem lookupM_clean_redirect (t : TreeMux) (req : ProxyRequest)
    (hx : Option Handler) (px : List String) (n2 : Node) (h2? : Option Handler)
    (ps2 : List String) (code : Nat) (hpath : req.path ≠ "")
    (hs1 : t.search req.httpMethod (strDrop1 (t.effPath req.path)) = (none, hx, px))
    (hcl : t.redirectCleanPath = true)
    (hs2 : t.search req.httpMethod (strDrop1 (cleanModel (t.effPath req.path)))
      = (some n2, h2?, ps2))
    (hrsc : t.redirectStatusCode req.httpMethod = (code, true)) :
    t.lookupM req = some ({ statusCode := code,
                            handler := some (redirectHandler
                              (cleanModel (t.effPath req.path)) code) }, true) := by
  have hlen : ¬ req.path.data.length = 0 := fun h0 =>
    string_data_ne_nil hpath (List.length_eq_zero.mp h0)
  unfold TreeMux.lookupM TreeMux.lookupMT
  rw [if_neg hlen, hs1]
  simp [hcl, hs2, hrsc]

theorem lookupCont_not_allowed (t : TreeMux) (m : String) (ts : Bool)
    (p1 u1 : String) (n : Node) (params : List String)
    (ho : t.optionsHandler = none) :
    t.lookupCont m ts p1 u1 n none params =
      some ({ statusCode := 405, leafHandler := some n.leafHandler }, false) := by
  unfold TreeMux.lookupCont optionsFallback
  rw [ho]
  simp

theorem lookupCont_some (t : TreeMux) (m : String) (ts : Bool)
    (p1 u1 : String) (n : Node) (h : Handler) (params : List String) :
    t.lookupCont m ts p1 u1 n (some h) params =
      t.redirPhase m ts p1 u1 n h params := rfl

theorem if_bool_true {α : Sort 1} (a b : α) : (if true = true then a else b) = a := rfl

theorem if_bool_false {α : Sort 1} (a b : α) : (if false = true then a else b) = b := rfl

theorem lookupCont_no_redirect (t : TreeMux) (m : String) (ts : Bool)
    (p1 u1 : String) (n : Node) (h : Handler) (params : List String)
    (hc : ((!n.isCatchAll || t.removeCatchAllTrailingSlash) && (ts != n.addSlash)
      && t.redirectTrailingSlash) = false) :
    t.lookupCont m ts p1 u1 n (some h) params = paramPhase n h params := by
  rw [lookupCont_some]
  unfold TreeMux.redirPhase
  rw [hc, if_bool_false]

theorem lookupCont_redirect (t : TreeMux) (m : String) (ts : Bool) (p1 u1 : String)
    (n : Node) (h : Handler) (params : List String) (code : Nat)
    (hc : ((!n.isCatchAll || t.removeCatchAllTrailingSlash) && (ts != n.addSlash)
      && t.redirectTrailingSlash) = true)
    (hrsc : t.redirectStatusCode m = (code, true))
    (hor : n.addSlash = true ∨ p1 ≠ "/") :
    t.lookupCont m ts p1 u1 n (some h) params =
      some ({ statusCode := code,
              handler := some (redirectHandler
                (if n.addSlash then u1 ++ "/" else u1) code) }, true) := by
  have h1 : (t.redirectStatusCode m).1 = code := by rw [hrsc]
  have h2 : (t.redirectStatusCode m).2 = true := by rw [hrsc]
  rw [lookupCont_some]
  unfold TreeMux.redirPhase
  rw [hc, if_bool_true, h2, if_bool_true, h1]
  rcases hor with haddT | hp
  · rw [haddT, if_bool_true]
    rfl
  · cases hadd : n.addSlash
    · rw [if_bool_false, if_bool_false, if_pos hp]
    · rw [if_bool_true]
      rfl

/-! ### Sorting lemmas for the `Allow` list -/

theorem charsLe_total (as bs : List Char) :
    charsLe as bs = true ∨ charsLe bs as = true := by
  induction as generalizing bs with
  | nil => left; rfl
  | cons a as ih =>
    cases bs with
    | nil => right; rfl
    | cons b bs =>
      by_cases h1 : a.toNat < b.toNat
      · left; simp [charsLe, h1]
      · by_cases h2 : b.toNat < a.toNat
        · right; simp [charsLe, h2]
        · rcases ih bs with h | h
          · left; simp [charsLe, h1, h2, h]
          · right; simp [charsLe, h1, h2, h]

theorem charsLe_trans (as bs cs : List Char) (h1 : charsLe as bs = true)
    (h2 : charsLe bs cs = true) : charsLe as cs = true := by
  induction as generalizing bs cs with
  | nil => rfl
  | cons a as ih =>
    cases bs with
    | nil => simp [charsLe] at h1
    | cons b bs =>
      cases cs with
      | nil => simp [charsLe] at h2
      | cons c cs =>
        by_cases hab : a.toNat < b.toNat
        · by_cases hbc : b.toNat < c.toNat
          · simp [charsLe, show a.toNat < c.toNat by omega]
          · by_cases hcb : c.toNat < b.toNat
            · simp [charsLe, hbc, hcb] at h2
            · have : b.toNat = c.toNat := by omega
              simp [charsLe, show a.toNat < c.toNat by omega]
        · by_cases hba : b.toNat < a.toNat
          · simp [charsLe, hab, hba] at h1
          · have hab2 : a.toNat = b.toNat := by omega
            simp only [charsLe, if_neg hab, if_neg hba] at h1
            by_cases hbc : b.toNat < c.toNat
            · simp [charsLe, show a.toNat < c.toNat by omega]
            · by_cases hcb : c.toNat < b.toNat
              · simp [charsLe, hbc, hcb] at h2
              · simp only [charsLe, if_neg hbc, if_neg hcb] at h2
                simp only [charsLe, if_neg (show ¬ a.toNat < c.toNat by omega),
                  if_neg (show ¬ c.toNat < a.toNat by omega)]
                exact ih bs cs h1 h2

theorem strLe_total (a b : String) : strLe a b = true ∨ strLe b a = true :=
  charsLe_total a.data b.data

theorem strLe_trans (a b c : String) (h1 : strLe a b = true)
    (h2 : strLe b c = true) : strLe a c = true :=
  charsLe_trans a.data b.data c.data h1 h2

theorem insertSorted_perm (x : String) (l : List String) :
    (insertSorted x l).Perm (x :: l) := by
  induction l with
  | nil => exact List.Perm.refl _
  | cons y ys ih =>
    by_cases h : strLe x y = true
    · rw [insertSorted, if_pos h]
    · rw [insertSorted, if_neg h]
      exact (List.Perm.cons y ih).trans (List.Perm.swap x y ys)

theorem sortStrings_perm (l : List String) : (sortStrings l).Perm l := by
  induction l with
  | nil => exact List.Perm.refl _
  | cons x xs ih =>
    exact (insertSorted_perm x (sortStrings xs)).trans (List.Perm.cons x ih)

theorem insertSorted_pairwise (x : String) (l : List String)
    (hl : List.Pairwise (fun a b => strLe a b = true) l) :
    List.Pairwise (fun a b => strLe a b = true) (insertSorted x l) := by
  induction l with
  | nil => simp [insertSorted]
  | cons y ys ih =>
    rcases List.pairwise_cons.mp hl with ⟨hy, hys⟩
    by_cases h : strLe x y = true
    · rw [insertSorted, if_pos h]
      refine List.pairwise_cons.mpr ⟨?_, hl⟩
      intro z hz
      rcases List.mem_cons.mp hz with rfl | hz2
      · exact h
      · exact strLe_trans x y z h (hy z hz2)
    · rw [insertSorted, if_neg h]
      refine List.pairwise_cons.mpr ⟨?_, ih hys⟩
      intro z hz
      rcases List.mem_cons.mp ((insertSorted_perm x ys).mem_iff.mp hz) with rfl | hz2
      · rcases strLe_total z y with ht | ht
        · exact absurd ht h
        · exact ht
      · exact hy z hz2

theorem sortStrings_pairwise (l : List String) :
    List.Pairwise (fun a b => strLe a b = true) (sortStrings l) := by
  induction l with
  | nil => exact List.Pairwise.nil
  | cons x xs ih => exact insertSorted_pairwise x (sortStrings xs) ih

/-! ### C2 : method-not-allowed responses -/

/-- C2: on a router with the `New()` defaults, when the search finds a node
but resolves no handler for the method, serving the lookup result produces a
405 response whose `Allow` header is exactly the methods registered at that
node, sorted ascending (and space-joined). -/
theorem c2_method_not_allowed
    (search : String → String → Option Node × Option Handler × List String)
    (stageVars : List (String × List (String × String)))
    (req : ProxyRequest) (n : Node) (ps : List String)
    (hpath : req.path ≠ "")
    (hs : search req.httpMethod (strDrop1 ((mkNew search stageVars).effPath req.path))
      = (some n, none, ps)) :
    (mkNew search stageVars).lookupAndServe req = some
      { statusCode := 405
        headers := [("Allow", String.intercalate " "
          (sortStrings (n.leafHandler.map Prod.fst)))]
        body := "\x7b\"error\": \"Method Not Allowed\"\x7d" } ∧
    List.Pairwise (fun a b => strLe a b = true)
      (sortStrings (n.leafHandler.map Prod.fst)) ∧
    List.Perm (sortStrings (n.leafHandler.map Prod.fst))
      (n.leafHandler.map Prod.fst) := by
  have h1 : (mkNew search stageVars).lookupM req =
      some ({ statusCode := 405, leafHandler := some n.leafHandler }, false) := by
    rw [lookupM_cont _ req n none ps hpath hs,
      lookupCont_not_allowed _ _ _ _ _ _ _ rfl]
  refine ⟨?_, sortStrings_pairwise _, sortStrings_perm _⟩
  unfold TreeMux.lookupAndServe
  rw [h1]
  rfl

/-- Witness: requesting `POST /a` yields 405 with `Allow: GET PUT`. -/
theorem c2_method_not_allowed_witness :
    (mkNew c2search []).lookupAndServe { httpMethod := "POST", path := "/a" } = some
      { statusCode := 405
        headers := [("Allow", "GET PUT")]
        body := "\x7b\"error\": \"Method Not Allowed\"\x7d" } := by
  have h := c2_method_not_allowed c2search []
    { httpMethod := "POST", path := "/a" } c2n [] (by decide) rfl
  rw [h.1]
  rfl

/-! ### C4 : redirect status code and Location -/

/-- C4 counterexample: the trailing-slash redirect for `/a/?q=1` answers with
`Location: /a` — the original query string is not preserved in the Location
value (`LambdaRedirect` stores only the corrected path). -/
theorem c4_location_drops_query :
    (c4mux.lookupAndServe c4req).map (fun r => alookup "Location" r.headers)
      = some (some "/a") ∧
    some (some "/a") ≠ some (some "/a?q=1") := by
  constructor
  · rfl
  · decide

/-- C4 amended: a request requiring a slash redirect (first conjunct) or a
clean-path redirect (second conjunct), with redirection enabled for its
method, is answered with the configured redirect status code — the
per-method override taking precedence inside `redirectStatusCode` — and a
`Location` header holding exactly the corrected path; the original query
string and fragment are not carried over. -/
theorem c4_redirect_code_and_location (t : TreeMux) (req : ProxyRequest) (code : Nat) :
    (∀ (n : Node) (h : Handler) (params : List String),
      req.path ≠ "" →
      t.search req.httpMethod (strDrop1 (t.effPath req.path)) = (some n, some h, params) →
      ((!n.isCatchAll || t.removeCatchAllTrailingSlash)
        && (goTrailingSlash req.path != n.addSlash) && t.redirectTrailingSlash) = true →
      t.redirectStatusCode req.httpMethod = (code, true) →
      (n.addSlash = true ∨ t.effPath req.path ≠ "/") →
      t.lookupAndServe req = some (lambdaRedirect
        (if n.addSlash then t.effPath req.path ++ "/" else t.effPath req.path) code)) ∧
    (∀ (hx : Option Handler) (px : List String) (n2 : Node) (h2? : Option Handler)
        (ps2 : List String),
      req.path ≠ "" →
      t.search req.httpMethod (strDrop1 (t.effPath req.path)) = (none, hx, px) →
      t.redirectCleanPath = true →
      t.search req.httpMethod (strDrop1 (cleanModel (t.effPath req.path)))
        = (some n2, h2?, ps2) →
      t.redirectStatusCode req.httpMethod = (code, true) →
      t.lookupAndServe req = some (lambdaRedirect (cleanModel (t.effPath req.path)) code)) := by
  constructor
  · intro n h params hpath hs hc hrsc hor
    have h1 := lookupM_cont t req n (some h) params hpath hs
    rw [lookupCont_redirect t req.httpMethod (goTrailingSlash req.path)
      (t.effPath req.path) (t.effPath req.path) n h params code hc hrsc hor] at h1
    unfold TreeMux.lookupAndServe
    rw [h1]
    rfl
  · intro hx px n2 h2? ps2 hpath hs1 hcl hs2 hrsc
    have h1 := lookupM_clean_redirect t req hx px n2 h2? ps2 code hpath hs1 hcl hs2 hrsc
    unfold TreeMux.lookupAndServe
    rw [h1]
    rfl

/-- Witness: both amended C4 conjuncts at concrete routers — the slash
redirect of `/a/` to `/a`, and the clean-path redirect of `//x` to `/x`,
both carrying the default 301. -/
theorem c4_redirect_code_and_location_witness :
    c4mux.lookupAndServe c4req = some (lambdaRedirect "/a" 301) ∧
    c4bmux.lookupAndServe c4breq = some (lambdaRedirect "/x" 301) := by
  constructor
  · have h := (c4_redirect_code_and_location c4mux c4req 301).1 c4n c4h []
      (by decide) rfl (by decide) rfl (Or.inr (by decide))
    rw [h]
    rfl
  · have h := (c4_redirect_code_and_location c4bmux c4breq 301).2 none [] c4bn
      (some c4h) [] (by decide) rfl rfl rfl rfl
    rw [h]
    rfl

/-! ### C1 : wildcard value reversal in the parameter map -/

theorem buildParamMap_fold (names params : List String) :
    buildParamMap names params =
      ((List.range params.length).map (fun i =>
        (names.getD (params.length - i - 1) "", params.getD i ""))).foldl
        (fun m p => mapSet m p.1 p.2) [] := by
  unfold buildParamMap
  rw [List.foldl_map]

theorem buildParamMap_lookup (names params : List String)
    (hnd : names.Nodup) (hlen : params.length = names.length)
    (j : Nat) (hj : j < names.length) :
    alookup (names.getD j "") (buildParamMap names params)
      = some (params.getD (params.length - 1 - j) "") := by
  rw [buildParamMap_fold]
  apply alookup_foldl_mapSet_mem
  · rw [List.map_map]
    refine List.Nodup.map_on ?_ (List.nodup_range _)
    intro x hx y hy hxy
    rw [List.mem_range] at hx hy
    have hx1 : params.length - x - 1 < names.length := by omega
    have hy1 : params.length - y - 1 < names.length := by omega
    simp only [Function.comp_apply] at hxy
    rw [List.getD_eq_get _ _ hx1, List.getD_eq_get _ _ hy1] at hxy
    have h2 := List.nodup_iff_injective_get.mp hnd hxy
    rw [Fin.mk.injEq] at h2
    omega
  · have hj2 : params.length - 1 - j < params.length := by omega
    refine List.mem_map.mpr ⟨params.length - 1 - j, List.mem_range.mpr hj2, ?_⟩
    show (names.getD (params.length - (params.length - 1 - j) - 1) "",
      params.getD (params.length - 1 - j) "") = _
    have he : params.length - (params.length - 1 - j) - 1 = j := by omega
    rw [he]

/-- C1: on a successful match with a non-empty collected value list, `lookup`
exposes `buildParamMap`, which binds the wildcard name at position `j` of the
leaf's (root-to-leaf ordered) name list to the collected value at position
`k-1-j` — equivalently, the `i`-th collected value (depth-descending) is
bound to the name at position `k-1-i`. -/
theorem c1_param_reversal (t : TreeMux) (req : ProxyRequest) (n : Node) (h : Handler)
    (params : List String) (j : Nat)
    (hpath : req.path ≠ "")
    (hs : t.search req.httpMethod (strDrop1 (t.effPath req.path)) = (some n, some h, params))
    (hts : goTrailingSlash req.path = n.addSlash)
    (hne : params ≠ [])
    (hlen : params.length = n.leafWildcardNames.length)
    (hnd : n.leafWildcardNames.Nodup)
    (hj : j < n.leafWildcardNames.length) :
    t.lookupM req = some ({ statusCode := 200, handler := some h,
                            params := buildParamMap n.leafWildcardNames params }, true) ∧
    alookup (n.leafWildcardNames.getD j "") (buildParamMap n.leafWildcardNames params)
      = some (params.getD (params.length - 1 - j) "") := by
  constructor
  · have hc : ((!n.isCatchAll || t.removeCatchAllTrailingSlash)
        && (goTrailingSlash req.path != n.addSlash) && t.redirectTrailingSlash) = false := by
      rw [hts]
      simp
    rw [lookupM_cont t req n (some h) params hpath hs,
      lookupCont_no_redirect t _ _ _ _ n h params hc]
    unfold paramPhase
    rw [if_pos (fun h0 : params.length = 0 => hne (List.length_eq_zero.mp h0)),
      if_neg (fun hcc : params.length ≠ n.leafWildcardNames.length => hcc hlen)]
  · exact buildParamMap_lookup _ _ hnd hlen j hj

/-- Witness: the root-most name `a` receives the last collected value `v0`. -/
theorem c1_param_reversal_witness :
    c1mux.lookupM c1req = some ({ statusCode := 200, handler := some c1h,
                                  params := buildParamMap ["a", "b"] ["v1", "v0"] }, true) ∧
    alookup "a" (buildParamMap ["a", "b"] ["v1", "v0"]) = some "v0" := by
  have h := c1_param_reversal c1mux c1req c1n c1h ["v1", "v0"] 0
    (by decide) rfl (by decide) (by decide) (by decide) (by decide) (by decide)
  exact ⟨h.1, h.2⟩

end LambdaRouter
